import Mathlib

/-!
Shallow embedding of the cpp_streams push-based pipeline library
(src/src/cpp_streams/cpp_streams.hpp, second revision, the one the
claims cite).

A C++ source is a procedure `(sink) -> void` where `sink : value -> bool`
is a stateful callback (a lambda mutating captured state by reference).
We model the mutable callback state explicitly: a sink callback over
state type sigma is a function `alpha -> sigma -> Bool x sigma`, and a
source is a state-polymorphic push procedure that threads that state
through its iteration, honouring (or not) the boolean stop signal exactly
as the C++ loops do.

The file is organised as definitions first (the embedding), then
theorems (the claims).
-/

namespace CppStreams

/-- Model of `detail::source` / `adapt_source_function`: a push procedure
that, for any sink-callback state type, drives a stateful callback over
its elements.  The returned value is the callback state after the
traversal (the C++ push procedure returns void; its observable effect is
the mutation of the sink's captured state). -/
def Source (α : Type) : Type 1 :=
  (σ : Type) → (α → σ → Bool × σ) → σ → σ

/-- Loop body of `from_iterators` (lines 857-871):
`for (auto iter = begin; iter != end && sink (*iter); ++iter) ;` —
push each element in order, stopping as soon as the callback returns
false. -/
def pushList {α σ : Type} (sink : α → σ → Bool × σ) : List α → σ → σ
  | [], s => s
  | x :: rest, s =>
    let r := sink x s
    if r.1 then pushList sink rest r.2 else r.2

/-- Model of `from_iterators` (lines 857-871); `from (container)`
(lines 875-878) is `from_iterators (container.begin (), container.end ())`,
i.e. the same traversal over the container's element list. -/
def from_iterators {α : Type} (xs : List α) : Source α :=
  fun _ sink s => pushList sink xs s

/-- Model of `from_empty` (lines 894-901): the push procedure invokes the
callback zero times. -/
def from_empty (α : Type) : Source α :=
  fun _ _ s => s

/-- Model of `append` (lines 930-969): the composed push procedure drains
the primary source into the shared sink, then drains `other_source` into
the same sink.  Note that the second drain is unconditional in the code:
no flag records whether the first drain was stopped by the sink.
`a >> append (b)` is `append b a`. -/
def append {α : Type} (other_source : Source α) (source : Source α) : Source α :=
  fun σ sink s =>
    let s1 := source σ (fun v t => sink v t) s
    other_source σ (fun v t => sink v t) s1

/-- Callback of `to_vector` (lines 1652-1672):
`result.push_back (v); return true;`.  The identical lambda body also
appears as the buffering callback of `reverse` (lines 1142-1146). -/
def vecStep {α : Type} (v : α) (r : List α) : Bool × List α :=
  (true, r ++ [v])

/-- Model of `to_vector` (lines 1652-1672): collect every element,
always continuing. -/
def to_vector {α : Type} (source : Source α) : List α :=
  source (List α) vecStep []

/-- Model of `to_first_or_default` (lines 1396-1415): result starts as
`value_type ()` (the default value); the callback stores the element and
returns false. -/
def to_first_or_default {α : Type} [Inhabited α] (source : Source α) : α :=
  source α (fun v _ => (false, v)) default

/-- Model of `to_all` (lines 1348-1368): `result` starts false; the
callback executes `return result = tester (v)`; the final `result` is
returned. -/
def to_all {α : Type} (tester : α → Bool) (source : Source α) : Bool :=
  source Bool (fun v _ => (tester v, tester v)) false

/-- Model of `to_any` (lines 1372-1392): `result` starts true; the
callback executes `return result = !tester (v)`; `!result` is returned. -/
def to_any {α : Type} (tester : α → Bool) (source : Source α) : Bool :=
  !(source Bool (fun v _ => (!(tester v), !(tester v))) true)

/-- Model of `to_sum` (lines 1629-1648): accumulator starts as
`value_type ()` (zero) and the callback executes `result += v; return
true;`. -/
def to_sum {α : Type} [Zero α] [Add α] (source : Source α) : α :=
  source α (fun v r => (true, r + v)) 0

/-- Model of `to_fold` (lines 1439-1461): generalized left fold;
`state = folder (state, v); return true;`. -/
def to_fold {α β : Type} (initial : β) (folder : β → α → β) (source : Source α) : β :=
  source β (fun v st => (true, folder st v)) initial

/-- Counting sink: a callback that increments a counter and continues;
the state records how many times the callback was invoked. -/
def countInvocations {α : Type} (source : Source α) : Nat :=
  source Nat (fun _ c => (true, c + 1)) 0

/-- Callback of `take` (lines 1283-1311): the per-traversal local
`remaining` is threaded as the first state component;
`if (remaining > 0) { --remaining; return sink (v); } else return false;`. -/
def takeStep {α σ : Type} (sink : α → σ → Bool × σ) (v : α) :
    Nat × σ → Bool × (Nat × σ)
  | (remaining, s) =>
    if remaining > 0 then
      let r := sink v s
      (r.1, (remaining - 1, r.2))
    else
      (false, (remaining, s))

/-- Model of `take` (lines 1283-1311): the push procedure declares
`auto remaining = count;` and drives the upstream with the wrapped
callback. -/
def take {α : Type} (count : Nat) (source : Source α) : Source α :=
  fun σ sink s => (source (Nat × σ) (takeStep sink) (count, s)).2

/-- Loop body of `from_range` (lines 841-853):
`for (auto iter = begin; iter < end && sink (iter); ++iter) ;` — the
guard `iter < end` is tested before each callback invocation.  The fuel
argument bounds the iteration count; `from_range` supplies
`(end - begin).toNat`, exactly the number of iterations the C++ loop can
perform. -/
def fromRangeLoop {σ : Type} (e : Int) (sink : Int → σ → Bool × σ) :
    Nat → Int → σ → σ
  | 0, _, s => s
  | fuel + 1, i, s =>
    if i < e then
      let r := sink i s
      if r.1 then fromRangeLoop e sink fuel (i + 1) r.2 else r.2
    else s

/-- Model of `from_range` (lines 841-853): pushes the half-open numeric
sequence starting at `begin`, guarded by `iter < end`. -/
def from_range (b e : Int) : Source Int :=
  fun _ sink s => fromRangeLoop e sink (e - b).toNat b s

/-- Half-open integer interval `[b, e)` as a list. -/
def intRange (b e : Int) : List Int :=
  (List.range (e - b).toNat).map (fun (k : Nat) => b + (k : Int))

/-- Replay loop of `reverse` (lines 1126-1152):
`auto iter = result.size (); while (iter != 0 && sink (std::move (result[--iter]))) ;` —
push the buffered elements back-to-front, stopping as soon as the
downstream callback returns false. -/
def revLoop {α σ : Type} [Inhabited α] (sink : α → σ → Bool × σ) (buf : List α) :
    Nat → σ → σ
  | 0, s => s
  | iter + 1, s =>
    let r := sink (buf.getD iter default) s
    if r.1 then revLoop sink buf iter r.2 else r.2

/-- Model of `reverse` (lines 1126-1152): the push procedure first drains
the entire upstream into a local vector (with the always-true buffering
callback, whose body matches `vecStep`) and only then replays the buffer
back-to-front through the downstream callback. -/
def reverse {α : Type} [Inhabited α] (source : Source α) : Source α :=
  fun _ sink s =>
    let result := source (List α) vecStep []
    revLoop sink result result.length s

/-- Deterministic upstream behaviour: at each step the upstream either
ends its push loop or pushes a value and then — depending on the boolean
the callback returned — continues with some further behaviour.  A
behaviour may keep pushing after receiving false, modelling an upstream
that ignores the stop protocol. -/
inductive UpBehavior (α : Type) where
  | done : UpBehavior α
  | push : α → (Bool → UpBehavior α) → UpBehavior α

/-- Run an upstream behaviour against a stateful callback, invoking the
callback for every pushed value regardless of the boolean it returns. -/
def runUp {α σ : Type} : UpBehavior α → (α → σ → Bool × σ) → σ → σ
  | .done, _, s => s
  | .push v k, sink, s =>
    let r := sink v s
    runUp (k r.1) sink r.2

/-- An upstream behaviour as a Source. -/
def runUpSource {α : Type} (u : UpBehavior α) : Source α :=
  fun _ sink s => runUp u sink s

/-- Instrumented callback: count the invocations of `f` alongside its own
state. -/
def countedF {α σ : Type} (f : α → σ → Bool × σ) (v : α) :
    Nat × σ → Bool × (Nat × σ)
  | (c, s) =>
    let r := f v s
    (r.1, (c + 1, r.2))

/-- Syntax of the (stateful and stateless) transformation pipes that the
re-driving claim ranges over. -/
inductive Stage (α : Type) where
  | mapS (f : α → α)
  | filterS (p : α → Bool)
  | mapiS (f : Nat → α → α)
  | skipS (n : Nat)
  | skipWhileS (p : α → Bool)
  | takeS (n : Nat)

/-- Initial per-traversal local state of each stage, as set by the local
variable declarations at the start of each push procedure: skip and take
start their `remaining` counter at the captured count (`auto remaining =
count;` lines 1170 and 1296), mapi starts its index at 0 (`std::size_t
iter = 0U;` line 1113), skip_while starts with `do_skip = true`
(line 1206).  Stateless stages carry a dummy value. -/
def stageInit {α : Type} : Stage α → Nat × Bool
  | .skipS n => (n, true)
  | .takeS n => (n, true)
  | .mapiS _ => (0, true)
  | .skipWhileS _ => (0, true)
  | .mapS _ => (0, true)
  | .filterS _ => (0, true)

/-- Wrapped callback of each stage, translated from the callback lambdas
of `map` (lines 1076-1083), `filter` (lines 1035-1049), `mapi`
(lines 1110-1119), `skip` (lines 1167-1184), `skip_while`
(lines 1203-1224) and `take` (lines 1293-1309).  The stage's local state
is the first component of the threaded state. -/
def stageStep {α σ : Type} (st : Stage α) (sink : α → σ → Bool × σ) (v : α) :
    (Nat × Bool) × σ → Bool × ((Nat × Bool) × σ)
  | (ls, s) =>
    match st with
    | .mapS f =>
      let r := sink (f v) s
      (r.1, (ls, r.2))
    | .filterS p =>
      if p v then
        let r := sink v s
        (r.1, (ls, r.2))
      else (true, (ls, s))
    | .mapiS f =>
      let r := sink (f ls.1 v) s
      (r.1, ((ls.1 + 1, ls.2), r.2))
    | .skipS _ =>
      if ls.1 = 0 then
        let r := sink v s
        (r.1, (ls, r.2))
      else (true, ((ls.1 - 1, ls.2), s))
    | .skipWhileS p =>
      if !ls.2 then
        let r := sink v s
        (r.1, (ls, r.2))
      else if p v then (true, (ls, s))
      else
        let r := sink v s
        (r.1, ((ls.1, false), r.2))
    | .takeS _ =>
      if ls.1 > 0 then
        let r := sink v s
        (r.1, ((ls.1 - 1, ls.2), r.2))
      else (false, (ls, s))

/-- Apply one stage to a source, starting its per-traversal local state
from the given value. -/
def applyStageWith {α : Type} (ls : Nat × Bool) (st : Stage α)
    (source : Source α) : Source α :=
  fun σ sink s => (source ((Nat × Bool) × σ) (stageStep st sink) (ls, s)).2

/-- Interpret a stage list over a source, drawing each stage's starting
local state from the given store (falling back to the stage's initial
value where the store is short). -/
def pipeWith {α : Type} : List (Stage α) → List (Nat × Bool) → Source α → Source α
  | [], _, source => source
  | st :: rest, store, source =>
    pipeWith rest store.tail (applyStageWith (store.headD (stageInit st)) st source)

/-- What each push-procedure invocation does to whatever local-state
values a previous drive might have left behind: every stage's counter and
flag are re-declared as fresh locals, so the residual store is discarded
and replaced by the initial values. -/
def resetStore {α : Type} (stages : List (Stage α)) (_residual : List (Nat × Bool)) :
    List (Nat × Bool) :=
  stages.map stageInit

/-! Theorems. -/

/-- Claim C1 (code behaviour at the failing input): with primary source
`[1, 2]` and appended source `[10]`, the pipeline
`from [1, 2] >> append (from [10]) >> to_first_or_default` evaluates to
`10`, the first element of the appended source, not `1`, the first
element of the primary source: `append` drains the appended source even
though the sink already signalled stop.  This refutes the claim that the
appended source is drained only if the sink did not stop. -/
theorem append_first_or_default_takes_from_other :
    to_first_or_default (append (from_iterators [10]) (from_iterators [1, 2])) = 10 := by
  rfl

/-- Claim C2 (code behaviour at the failing input): drive
`from [1] >> append (from [2])` with a sink callback that records every
invocation and always returns false (stop).  The recorded invocation list
is `[1, 2]`: the callback is invoked a second time after it returned
false, because `append` unconditionally drains the appended source.  This
refutes the claimed stop-propagation invariant for pipelines containing
`append`. -/
theorem append_invokes_callback_after_false :
    append (from_iterators [2]) (from_iterators [1])
      (List Nat) (fun v l => (false, l ++ [v])) [] = [1, 2] := by
  rfl

/-- Claim C4: on an empty source (both `from_empty` and a `from` over an
empty range), `to_all` returns false (the design's intentional
vacuous-false) and `to_any` returns false, for every predicate. -/
theorem to_all_to_any_empty {α : Type} (p : α → Bool) :
    to_all p (from_empty α) = false ∧ to_any p (from_empty α) = false ∧
    to_all p (from_iterators ([] : List α)) = false ∧
    to_any p (from_iterators ([] : List α)) = false := by
  refine ⟨rfl, rfl, rfl, rfl⟩

/-- Claim C4 witness: the empty-source boundary at a concrete predicate. -/
theorem to_all_to_any_empty_witness :
    to_all (fun n => decide (n % 2 = 0)) (from_empty Nat) = false ∧
    to_any (fun n => decide (n % 2 = 0)) (from_empty Nat) = false ∧
    to_all (fun n => decide (n % 2 = 0)) (from_iterators ([] : List Nat)) = false ∧
    to_any (fun n => decide (n % 2 = 0)) (from_iterators ([] : List Nat)) = false :=
  to_all_to_any_empty (fun n => decide (n % 2 = 0))

/-- Claim C7: for every integer sequence, `from (xs) >> to_sum` equals
`from (xs) >> to_fold (0, +)`: the += accumulation from the
default-initialized (zero) accumulator is the left fold seeded with zero
and addition. -/
theorem to_sum_eq_to_fold (xs : List Int) :
    to_sum (from_iterators xs) = to_fold 0 (fun a v => a + v) (from_iterators xs) := by
  rfl

/-- Claim C7 witness: the agreement at a concrete sequence. -/
theorem to_sum_eq_to_fold_witness :
    to_sum (from_iterators [(3 : Int), -1, 4]) =
      to_fold 0 (fun a v => a + v) (from_iterators [(3 : Int), -1, 4]) :=
  to_sum_eq_to_fold [(3 : Int), -1, 4]

theorem pushList_takeStep_vecStep {α : Type} (xs : List α) :
    ∀ (n : Nat) (acc : List α),
      (pushList (takeStep vecStep) xs (n, acc)).2 = acc ++ xs.take n := by
  induction xs with
  | nil => intro n acc; simp [pushList]
  | cons x rest ih =>
    intro n acc
    cases n with
    | zero => simp [pushList, takeStep]
    | succ m =>
      simp only [pushList, takeStep, vecStep]
      simp [ih m (acc ++ [x]), List.take_succ_cons]

/-- Claim C3 counterexample: for `xs = [5]` and `n = 0`, the callback
that `take 0` hands to the upstream `from` source IS invoked — exactly
once — during the traversal (the upstream pushes its first element into
it and receives false).  Counting that callback's invocations around the
`to_vector` drive of `from [5] >> take 0` yields 1, not 0, refuting
"the upstream source's push procedure is invoked zero times (no callback
invocation occurs)". -/
theorem take_zero_upstream_callback_invoked_once :
    (from_iterators [(5 : Nat)] (Nat × (Nat × List Nat))
        (countedF (takeStep vecStep)) (0, (0, []))).1 = 1 ∧
    ¬ (from_iterators [(5 : Nat)] (Nat × (Nat × List Nat))
        (countedF (takeStep vecStep)) (0, (0, []))).1 = 0 := by
  exact ⟨rfl, by decide⟩

/-- Claim C3 (amended): `from (xs) >> take (n) >> to_vector` yields
exactly the first `min (n, len xs)` elements of `xs` in order (that is
`xs.take n`); and for `n = 0` a counting callback installed as the sink
records zero invocations: no element ever reaches the downstream
callback (although the upstream is still entered and may push one element
into take's internal callback, which rejects it). -/
theorem take_to_vector_and_zero {α : Type} :
    (∀ (n : Nat) (xs : List α),
        to_vector (take n (from_iterators xs)) = xs.take n) ∧
    (∀ xs : List α, countInvocations (take 0 (from_iterators xs)) = 0) := by
  constructor
  · intro n xs
    have h := pushList_takeStep_vecStep xs n []
    simpa [to_vector, take, from_iterators] using h
  · intro xs
    cases xs with
    | nil => rfl
    | cons x rest => rfl

/-- Claim C3 witness: `take` at concrete inputs. -/
theorem take_to_vector_and_zero_witness :
    to_vector (take 2 (from_iterators [(5 : Nat), 6, 7])) = [(5 : Nat), 6, 7].take 2 ∧
    countInvocations (take 0 (from_iterators [(5 : Nat), 6, 7])) = 0 :=
  ⟨(take_to_vector_and_zero (α := Nat)).1 2 [5, 6, 7],
   (take_to_vector_and_zero (α := Nat)).2 [5, 6, 7]⟩

theorem intRange_eq_nil {b e : Int} (h : e ≤ b) : intRange b e = [] := by
  have : (e - b).toNat = 0 := Int.toNat_of_nonpos (by omega)
  simp [intRange, this]

theorem intRange_eq_cons {b e : Int} {fuel : Nat}
    (h : (e - b).toNat = fuel + 1) :
    intRange b e = b :: intRange (b + 1) e := by
  have h1 : (e - (b + 1)).toNat = fuel := by omega
  simp only [intRange, h, h1, List.range_succ_eq_map, List.map_cons, List.map_map]
  refine List.cons_eq_cons.mpr ⟨by simp, ?_⟩
  apply List.map_congr_left
  intro k _
  simp only [Function.comp_apply]
  push_cast
  ring

theorem fromRangeLoop_vecStep (e : Int) :
    ∀ (fuel : Nat) (i : Int) (acc : List Int),
      (e - i).toNat = fuel →
      fromRangeLoop e vecStep fuel i acc = acc ++ intRange i e := by
  intro fuel
  induction fuel with
  | zero =>
    intro i acc h
    have : e ≤ i := by omega
    simp [fromRangeLoop, intRange_eq_nil this]
  | succ m ih =>
    intro i acc h
    have hlt : i < e := by omega
    have h1 : (e - (i + 1)).toNat = m := by omega
    simp only [fromRangeLoop, hlt, if_pos, vecStep]
    simp only [ih (i + 1) (acc ++ [i]) h1, intRange_eq_cons h]
    simp

/-- Claim C5: `from_range (begin, end)` pushes exactly the half-open
sequence `begin, begin+1, ..., end-1` in increasing order, and when
`begin >= end` the traversal makes zero callback invocations. -/
theorem from_range_spec (b e : Int) :
    to_vector (from_range b e) = intRange b e ∧
    (e ≤ b → countInvocations (from_range b e) = 0) := by
  constructor
  · have h := fromRangeLoop_vecStep e (e - b).toNat b [] rfl
    simpa [to_vector, from_range] using h
  · intro h
    have : (e - b).toNat = 0 := Int.toNat_of_nonpos (by omega)
    simp [countInvocations, from_range, this, fromRangeLoop]

/-- Claim C5 witness: a populated range and an empty range, with the
`begin >= end` hypothesis discharged concretely. -/
theorem from_range_spec_witness :
    to_vector (from_range 2 5) = intRange 2 5 ∧
    countInvocations (from_range 5 2) = 0 :=
  ⟨(from_range_spec 2 5).1, (from_range_spec 5 2).2 (by decide)⟩

theorem pushList_vecStep {α : Type} (xs : List α) :
    ∀ acc : List α, pushList vecStep xs acc = acc ++ xs := by
  induction xs with
  | nil => intro acc; simp [pushList]
  | cons x rest ih =>
    intro acc
    simp [pushList, vecStep, ih (acc ++ [x])]

theorem revLoop_vecStep {α : Type} [Inhabited α] (buf : List α) :
    ∀ (n : Nat) (acc : List α), n ≤ buf.length →
      revLoop vecStep buf n acc = acc ++ (buf.take n).reverse := by
  intro n
  induction n with
  | zero => intro acc _; simp [revLoop]
  | succ m ih =>
    intro acc h
    have hm : m < buf.length := by omega
    simp only [revLoop, vecStep]
    rw [ih (acc ++ [buf.getD m default]) (by omega)]
    have htake : buf.take (m + 1) = buf.take m ++ [buf.getD m default] := by
      rw [List.getD_eq_getElem buf default hm, List.take_succ,
        List.getElem?_eq_getElem hm]
      rfl
    simp [htake]

theorem reverse_to_vector {α : Type} [Inhabited α] (xs : List α) :
    to_vector (reverse (from_iterators xs)) = xs.reverse := by
  have hbuf : from_iterators xs (List α) vecStep [] = xs := by
    simpa [from_iterators] using pushList_vecStep xs []
  have h := revLoop_vecStep xs xs.length [] (le_refl _)
  simp only [to_vector, reverse, hbuf]
  simpa using h

theorem reverse_buffers_then_replays {α : Type} [Inhabited α] (xs : List α)
    (σ : Type) (f : α → σ → Bool × σ) (s : σ) :
    reverse (from_iterators xs) σ f s = revLoop f xs xs.length s := by
  have hbuf : from_iterators xs (List α) vecStep [] = xs := by
    simpa [from_iterators] using pushList_vecStep xs []
  simp [reverse, hbuf]

theorem reverse_stops_on_false {α : Type} [Inhabited α] (x : α) (rest : List α) :
    reverse (from_iterators (x :: rest)) Nat (fun _ n => (false, n + 1)) 0 = 1 := by
  have h := reverse_buffers_then_replays (x :: rest) Nat (fun _ n => (false, n + 1)) 0
  simp only [h, List.length_cons]
  simp [revLoop]

/-- Claim C6: first, `from (xs) >> reverse >> to_vector` equals `xs`
reversed, for every (empty or non-empty) `xs`; second, for every
downstream callback and state, the traversal of `reverse (from (xs))` is
exactly: materialize all of `xs` into the buffer (no downstream push
happens during that drain), then run the back-to-front replay loop over
the full buffer — so the entire upstream is drained before any element is
pushed downstream; third, the replay stops as soon as the downstream
callback returns false: an always-false counting callback is invoked
exactly once on a non-empty source. -/
theorem reverse_spec {α : Type} [Inhabited α] :
    (∀ xs : List α, to_vector (reverse (from_iterators xs)) = xs.reverse) ∧
    (∀ (xs : List α) (σ : Type) (f : α → σ → Bool × σ) (s : σ),
        reverse (from_iterators xs) σ f s = revLoop f xs xs.length s) ∧
    (∀ (x : α) (rest : List α),
        reverse (from_iterators (x :: rest)) Nat (fun _ n => (false, n + 1)) 0 = 1) :=
  ⟨reverse_to_vector, reverse_buffers_then_replays, reverse_stops_on_false⟩

/-- Claim C6 witness: reverse at a concrete sequence. -/
theorem reverse_spec_witness :
    to_vector (reverse (from_iterators [(1 : Nat), 2, 3])) = [(1 : Nat), 2, 3].reverse ∧
    reverse (from_iterators [(1 : Nat), 2]) Nat (fun _ n => (false, n + 1)) 0 = 1 :=
  ⟨(reverse_spec (α := Nat)).1 [1, 2, 3], (reverse_spec (α := Nat)).2.2 1 [2]⟩

theorem runUp_takeStep_counted {α σ : Type} (f : α → σ → Bool × σ)
    (u : UpBehavior α) :
    ∀ (rem c : Nat) (s : σ),
      (runUp u (takeStep (countedF f)) (rem, (c, s))).2.1 +
        (runUp u (takeStep (countedF f)) (rem, (c, s))).1 = c + rem := by
  induction u with
  | done => intro rem c s; simp [runUp]
  | push v k ih =>
    intro rem c s
    cases rem with
    | zero => simpa [runUp, takeStep] using ih false 0 c s
    | succ m =>
      simp only [runUp, takeStep, countedF]
      have := ih (f v s).1 m (c + 1) (f v s).2
      simpa [Nat.add_assoc, Nat.add_comm, Nat.add_left_comm] using this

/-- Claim C8: for every upstream behaviour — including one that keeps
pushing after receiving false — `take n` invokes its downstream callback
at most `n` times during one traversal; and the wrapped callback of
`take` returns false, leaving the state untouched, whenever its quota
counter is zero. -/
theorem take_forwards_at_most {α : Type} :
    (∀ (u : UpBehavior α) (n : Nat) (σ : Type) (f : α → σ → Bool × σ) (s : σ),
        (take n (runUpSource u) (Nat × σ) (countedF f) (0, s)).1 ≤ n) ∧
    (∀ (σ : Type) (sink : α → σ → Bool × σ) (v : α) (s : σ),
        takeStep sink v (0, s) = (false, (0, s))) := by
  constructor
  · intro u n σ f s
    have h := runUp_takeStep_counted f u n 0 s
    simp only [take, runUpSource]
    omega
  · intro σ sink v s
    rfl

/-- Claim C8 witness: a rogue upstream that pushes three values ignoring
every stop signal, under `take 2` with an always-false counting callback:
the downstream callback is invoked at most twice; and the quota-zero
callback answer at a concrete state. -/
theorem take_forwards_at_most_witness :
    (take 2 (runUpSource
        (UpBehavior.push (1 : Nat) (fun _ =>
          UpBehavior.push 2 (fun _ =>
            UpBehavior.push 3 (fun _ => UpBehavior.done)))))
      (Nat × Nat) (countedF (fun _ c => (false, c + 1))) (0, 0)).1 ≤ 2 ∧
    takeStep (fun (_ : Nat) (c : Nat) => (false, c + 1)) 1 (0, 0) = (false, (0, 0)) :=
  ⟨(take_forwards_at_most (α := Nat)).1
      (UpBehavior.push 1 (fun _ =>
        UpBehavior.push 2 (fun _ =>
          UpBehavior.push 3 (fun _ => UpBehavior.done)))) 2 Nat
      (fun _ c => (false, c + 1)) 0,
   (take_forwards_at_most (α := Nat)).2 Nat (fun _ c => (false, c + 1)) 1 0⟩

/-- Claim C9: re-driving determinism.  Whatever per-stage local-state
values one drive leaves behind (`r1`) compared to any other residue
(`r2`), the next push-procedure invocation of the same composed pipeline
value produces the identical traversal, because every per-traversal
counter and flag is re-declared at the start of each push procedure
(`resetStore`).  Consequently driving the same pipeline twice yields the
same pushed sequence both times. -/
theorem pipeline_redrive_deterministic {α : Type}
    (stages : List (Stage α)) (xs : List α)
    (r1 r2 : List (Nat × Bool)) (σ : Type) (f : α → σ → Bool × σ) (s : σ) :
    pipeWith stages (resetStore stages r1) (from_iterators xs) σ f s =
    pipeWith stages (resetStore stages r2) (from_iterators xs) σ f s := by
  rfl

/-- Residual-state sensitivity of the raw interpreter: if `take 1` COULD
retain its exhausted counter from a previous drive, the second drive
would push nothing, unlike the fresh-counter drive.  This shows the
store argument of `pipeWith` is semantically live, so the determinism
theorem is about the reset, not about a vacuous parameter. -/
theorem pipeWith_store_sensitive :
    pipeWith [Stage.takeS 1] [((0 : Nat), true)] (from_iterators [(7 : Nat)])
      (List Nat) vecStep [] = [] ∧
    pipeWith [Stage.takeS 1] [((1 : Nat), true)] (from_iterators [(7 : Nat)])
      (List Nat) vecStep [] = [7] := by
  exact ⟨rfl, rfl⟩

/-- Claim C9 witness: a concrete pipeline (skip 1, then take 2, then
mapi) re-driven against two different residual stores pushes the same
sequence. -/
theorem pipeline_redrive_deterministic_witness :
    pipeWith [Stage.skipS 1, Stage.takeS 2, Stage.mapiS (fun i v => v + i)]
      (resetStore [Stage.skipS 1, Stage.takeS 2, Stage.mapiS (fun i v => v + i)]
        [((0 : Nat), false), ((0 : Nat), false), ((5 : Nat), false)])
      (from_iterators [(10 : Nat), 20, 30, 40]) (List Nat) vecStep [] =
    pipeWith [Stage.skipS 1, Stage.takeS 2, Stage.mapiS (fun i v => v + i)]
      (resetStore [Stage.skipS 1, Stage.takeS 2, Stage.mapiS (fun i v => v + i)] [])
      (from_iterators [(10 : Nat), 20, 30, 40]) (List Nat) vecStep [] :=
  pipeline_redrive_deterministic
    [Stage.skipS 1, Stage.takeS 2, Stage.mapiS (fun i v => v + i)]
    [(10 : Nat), 20, 30, 40]
    [((0 : Nat), false), ((0 : Nat), false), ((5 : Nat), false)] []
    (List Nat) vecStep []

end CppStreams
